import Mathlib

/-
Verification development for the retention planner of backup2gdrive
(src/backup_mud.py).  The functional core is `find_deletion_candidates`
(backup_mud.py:61-159); everything else in the repository is Google-Drive
plumbing with no decision logic.  This file gives a shallow embedding of
that function and settles the frozen claims about it.

Modelling notes (each choice is documented at the definition it concerns):
* Python `datetime.datetime` values are modelled by the `DateTime`
  structure below (year / month / day / time-of-day in microseconds, all
  UTC).  Python compares datetimes lexicographically by their fields.
* A record dict is modelled by `FileEntry`.  The `createdTime` value of a
  dict is `Option (Option DateTime)`: `none` means the key is absent,
  `some none` means the key holds a string `dateutil.parser.isoparse`
  rejects (the parser raises `ValueError` there), and `some (some d)`
  means the string parses to the aware UTC instant `d`.  The claims only
  distinguish these three situations, never the concrete text.
* `datetime.datetime.now(timezone.utc)` is nondeterministic, so the
  evaluation instant is passed as the explicit parameter `now`.
* Python exceptions are modelled by `Except PlanError`.
* Line 111 mutates the caller's dicts (it adds a `created_datetime` key);
  the model returns the post-call state of the list in
  `PlanResult.entriesAfter` next to the returned deletion list.
-/

set_option maxHeartbeats 1600000

namespace BackupMud

/-- Model of a Python `datetime.datetime` (UTC): calendar fields plus the
time of day in microseconds.  Python orders datetimes lexicographically by
(year, month, day, time). -/
structure DateTime where
  year : Nat
  month : Nat
  day : Nat
  tod : Nat
deriving DecidableEq, Repr

/-- Gregorian leap-year test, as in CPython `datetime._is_leap`. -/
def isLeap (y : Nat) : Bool :=
  y % 4 == 0 && (y % 100 != 0 || y % 400 == 0)

/-- Days in a month, as in CPython `datetime._days_in_month`. -/
def daysInMonth (y m : Nat) : Nat :=
  if m = 2 then (if isLeap y then 29 else 28)
  else if m = 4 ∨ m = 6 ∨ m = 9 ∨ m = 11 then 30
  else 31

/-- Cumulative day counts before each month in a non-leap year
(CPython `datetime._DAYS_BEFORE_MONTH`). -/
def daysBeforeMonthBase (m : Nat) : Nat :=
  match m with
  | 1 => 0
  | 2 => 31
  | 3 => 59
  | 4 => 90
  | 5 => 120
  | 6 => 151
  | 7 => 181
  | 8 => 212
  | 9 => 243
  | 10 => 273
  | 11 => 304
  | 12 => 334
  | _ => 0

/-- Days elapsed in year `y` before month `m` begins
(CPython `datetime._days_before_month`). -/
def daysBeforeMonth (y m : Nat) : Nat :=
  daysBeforeMonthBase m + (if 3 ≤ m ∧ isLeap y = true then 1 else 0)

/-- Days before January 1st of year `y` in the proleptic Gregorian
calendar (CPython `datetime._days_before_year`). -/
def daysBeforeYear (y : Nat) : Nat :=
  365 * (y - 1) + (y - 1) / 4 - (y - 1) / 100 + (y - 1) / 400

/-- Model of Python `datetime.toordinal()`: proleptic Gregorian ordinal,
with day 1 = January 1 of year 1. -/
def toordinal (d : DateTime) : Nat :=
  daysBeforeYear d.year + daysBeforeMonth d.year d.month + d.day

/-- Microseconds in a day. -/
def dayMicro : Nat := 86400000000

/-- Position of an instant on the absolute microsecond timeline.  For
valid datetimes this agrees with Python's lexicographic datetime order. -/
def absMicro (d : DateTime) : Nat :=
  toordinal d * dayMicro + d.tod

/-- The field ranges Python `datetime` guarantees for every constructible
value (`MINYEAR = 1`, months 1-12, days within the month, time below one
day). -/
def Valid (d : DateTime) : Prop :=
  1 ≤ d.year ∧ 1 ≤ d.month ∧ d.month ≤ 12 ∧ 1 ≤ d.day ∧
    d.day ≤ daysInMonth d.year d.month ∧ d.tod < dayMicro

instance (d : DateTime) : Decidable (Valid d) := by
  unfold Valid; infer_instance

/-- Python's `<` on datetimes: lexicographic on (year, month, day, time). -/
def Before (a b : DateTime) : Prop :=
  a.year < b.year ∨ (a.year = b.year ∧ (a.month < b.month ∨ (a.month = b.month ∧
    (a.day < b.day ∨ (a.day = b.day ∧ a.tod < b.tod)))))

instance (a b : DateTime) : Decidable (Before a b) := by
  unfold Before; infer_instance

/-- Boolean form of the datetime comparison. -/
def dtLtB (a b : DateTime) : Bool := decide (Before a b)

/-- Months elapsed since month 1 of year 0; `dateutil.relativedelta`
normalises month arithmetic on exactly this index. -/
def monthIdx (d : DateTime) : Nat := 12 * d.year + (d.month - 1)

/-- Model of `dt - relativedelta(months=g)`: decrement the month index and
clamp the day to the length of the resulting month, keeping the time
(dateutil `relativedelta.__radd__` normalisation.  dateutil would raise
below year 1; the model truncates at the epoch instead, a region no claim
exercises). -/
def subMonths (d : DateTime) (g : Nat) : DateTime :=
  { year := (monthIdx d - g) / 12
    month := (monthIdx d - g) % 12 + 1
    day := min d.day (daysInMonth ((monthIdx d - g) / 12) ((monthIdx d - g) % 12 + 1))
    tod := d.tod }

/-- Model of `dt - relativedelta(years=g)`: decrement the year and clamp
the day (February 29 falls back to 28), keeping month and time. -/
def subYears (d : DateTime) (g : Nat) : DateTime :=
  { year := d.year - g
    month := d.month
    day := min d.day (daysInMonth (d.year - g) d.month)
    tod := d.tod }

/-- The four granularities of a calendar keep policy
(backup_mud.py:115-119). -/
inductive Interval
  | days
  | weeks
  | months
  | years
deriving DecidableEq, Repr

/-- Embedding of the inner helper `date_component` (backup_mud.py:90-95):
`days` maps to `toordinal()`, `weeks` to `toordinal() // 7`, and
`months` / `years` to `getattr(dtobj, component[:-1])`, i.e. the bare
`month` / `year` attribute. -/
def date_component (d : DateTime) : Interval → Nat
  | .days => toordinal d
  | .weeks => toordinal d / 7
  | .months => d.month
  | .years => d.year

/-- Model of one element of `file_list`: a Google-Drive file dict.  The
`id` key is modelled as an always-present natural (no claim exercises a
missing id), `name` as the filename string, `createdTime` as described in
the header, and `created_datetime` as the key line 111 adds (absent on
input unless the caller pre-populated it, exactly as for a Python dict). -/
structure FileEntry where
  id : Nat
  name : String
  createdTime : Option (Option DateTime)
  created_datetime : Option DateTime
deriving DecidableEq, Repr

/-- The exceptions `find_deletion_candidates` can raise: the explicit
`RuntimeError` of line 121, the `ValueError` of `dateutil.parser.isoparse`
on an unparseable string (line 111), and the `TypeError` Python raises
when the final `sorted` call compares a `None` sort key with another key
(line 159). -/
inductive PlanError
  | runtimeError
  | valueError
  | typeError
deriving DecidableEq, Repr

/-- Model of the `keep_policy` dict restricted to the four keys the code
reads; `none` marks an absent key.  (Extra keys would only affect the
dict's truthiness and are not representable; no claim involves them.) -/
structure KeepPolicy where
  days : Option Nat
  weeks : Option Nat
  months : Option Nat
  years : Option Nat
deriving DecidableEq, Repr

/-- The `_keep_policy` OrderedDict of backup_mud.py:115-119: every key
present, with defaults filled in. -/
structure EffPolicy where
  days : Nat
  weeks : Nat
  months : Nat
  years : Nat
deriving DecidableEq, Repr

/-- Lines 116-119: `days` defaults to 7, the other granularities to 0. -/
def effPolicy (p : KeepPolicy) : EffPolicy :=
  { days := p.days.getD 7
    weeks := p.weeks.getD 0
    months := p.months.getD 0
    years := p.years.getD 0 }

/-- Count of the given granularity inside `_keep_policy`. -/
def effCount (p : EffPolicy) : Interval → Nat
  | .days => p.days
  | .weeks => p.weeks
  | .months => p.months
  | .years => p.years

/-- Python truthiness of the `max_keep` argument (line 103): `None` and
`0` are falsy.  (Negative counts never arise from the claims; the count is
a natural.) -/
def maxKeepTruthy (mk : Option Nat) : Bool := mk.getD 0 != 0

/-- Python truthiness of the `keep_policy` argument (line 113): `None` and
the empty dict are falsy; a dict with at least one key is truthy. -/
def keepPolicyTruthy : Option KeepPolicy → Bool
  | none => false
  | some p => p.days.isSome || p.weeks.isSome || p.months.isSome || p.years.isSome

/-- Model of Python `str.startswith`, by direct recursion on the character
lists (the second argument is the candidate leading string). -/
def charListStarts : List Char → List Char → Bool
  | _, [] => true
  | [], _ :: _ => false
  | c :: cs, p :: ps => c == p && charListStarts cs ps

/-- String form of `charListStarts`: line 99's
`file_entry.get('name').startswith(filename_prefix)` test. -/
def strStarts (s p : String) : Bool := charListStarts s.data p.data

/-- The filtering loop of backup_mud.py:97-100: keep the entries whose
name starts with the series string. -/
def matching_files (file_list : List FileEntry) (filenamePre : String) : List FileEntry :=
  file_list.filter (fun e => strStarts e.name filenamePre)

/-- True when line 111 would raise: the dict has a `createdTime` key whose
string `isoparse` rejects. -/
def unparseableB (e : FileEntry) : Bool := e.createdTime == some none

/-- Effect of lines 108-111 on one matching dict: when a `createdTime` key
is present and parses, store the parsed instant under `created_datetime`
(an in-place dict mutation in Python); otherwise leave the dict alone. -/
def setCreated (e : FileEntry) : FileEntry :=
  match e.createdTime with
  | some (some d) => { e with created_datetime := some d }
  | _ => e

/-- The records that take part in bucketing, paired with their parsed
instants: lines 128-131 skip every record whose `created_datetime` is
missing (`if not created: continue`; datetimes are always truthy). -/
def bucketedFiles (files : List FileEntry) : List (FileEntry × DateTime) :=
  files.filterMap (fun e =>
    match e.created_datetime with
    | some d => some (e, d)
    | none => none)

/-- The bucket `grouped_by_time[iv][k]` (backup_mud.py:133-136): the
bucketed records whose component equals `k`, in list order (the Python
loop appends in iteration order). -/
def bucketList (files : List FileEntry) (iv : Interval) (k : Nat) : List (FileEntry × DateTime) :=
  (bucketedFiles files).filter (fun p => date_component p.2 iv == k)

/-- The keys of `grouped_by_time[iv]` in the order line 146 visits them:
distinct component values, sorted descending. -/
def intervalKeys (files : List FileEntry) (iv : Interval) : List Nat :=
  List.insertionSort (fun a b : Nat => b ≤ a)
    (((bucketedFiles files).map (fun p => date_component p.2 iv)).dedup)

/-- Line 147-148: the bucket is sorted by `created_datetime` descending
(Python's sort is stable) and its head is taken, so the representative is
the first record in bucket order whose instant is maximal. -/
def repOf (l : List (FileEntry × DateTime)) : Option (FileEntry × DateTime) :=
  match l with
  | [] => none
  | q :: qs => some (qs.foldl (fun best r => if dtLtB best.2 r.2 then r else best) q)

/-- The body of the key loop (backup_mud.py:146-157) for a single key:
skip when the representative's id is already kept, otherwise keep it
exactly when the window test `chk` passes on its instant. -/
def passStep (files : List FileEntry) (iv : Interval) (chk : DateTime → Bool)
    (kp : Finset Nat) (k : Nat) : Finset Nat :=
  match repOf (bucketList files iv k) with
  | none => kp
  | some p => if p.1.id ∈ kp then kp else if chk p.2 then insert p.1.id kp else kp

/-- One granularity's evaluation pass: the key loop of line 146 folded
over the keys in descending order. -/
def passInterval (files : List FileEntry) (iv : Interval) (chk : DateTime → Bool)
    (kp : Finset Nat) : Finset Nat :=
  (intervalKeys files iv).foldl (passStep files iv chk) kp

/-- The window test of line 151, `created > window_start`, with
`window_start = now - relativedelta(**{interval: count})` (line 143-144).
For `days` / `weeks` the relativedelta is an exact timedelta of `g` resp.
`7 * g` days, and comparing valid aware datetimes lexicographically is the
same as comparing their positions on the absolute microsecond timeline,
so those cases are stated directly on that timeline (Python would raise
`OverflowError` if the window start fell before year 1; the model
truncates at the epoch, a region no claim exercises).  For `months` /
`years` dateutil uses calendar-aware normalisation, modelled by
`subMonths` / `subYears`. -/
def windowCheck (now : DateTime) (iv : Interval) (g : Nat) (created : DateTime) : Bool :=
  match iv with
  | .days => decide (absMicro now - g * dayMicro < absMicro created)
  | .weeks => decide (absMicro now - g * (7 * dayMicro) < absMicro created)
  | .months => dtLtB (subMonths now g) created
  | .years => dtLtB (subYears now g) created

/-- The fixed evaluation order of the granularities: the `OrderedDict`
of backup_mud.py:115-119 is built and iterated as days, weeks, months,
years. -/
def intervalOrder : List Interval := [.days, .weeks, .months, .years]

/-- The whole keep computation (backup_mud.py:138-157): the four passes in
order, threading the set of kept ids, starting from the empty `keep`
dict. -/
def runPasses (files : List FileEntry) (now : DateTime) (p : EffPolicy) : Finset Nat :=
  intervalOrder.foldl
    (fun kp iv => passInterval files iv (windowCheck now iv (effCount p iv)) kp) ∅

/-- Line 159's comprehension: the matching records whose id was never
kept, in list order. -/
def deletionPool (files : List FileEntry) (kept : Finset Nat) : List FileEntry :=
  files.filter (fun e => decide (e.id ∉ kept))

/-- Comparison of `created_datetime` sort keys; `None` keys never compare
successfully in Python, so their ordering here is immaterial (the planner
raises before sorting such a list of length at least two). -/
def optLtB : Option DateTime → Option DateTime → Bool
  | none, none => false
  | none, some _ => true
  | some _, none => false
  | some a, some b => dtLtB a b

/-- Precedence relation of the final descending sort: `a` may come before
`b` when `a`'s key is not smaller than `b`'s. -/
def keyGe (a b : FileEntry) : Prop :=
  optLtB a.created_datetime b.created_datetime = false

instance : DecidableRel keyGe := fun a b => by
  unfold keyGe; infer_instance

/-- Line 159's `sorted(..., key=..., reverse=True)`: a stable descending
sort by `created_datetime`. -/
def sortDesc (l : List FileEntry) : List FileEntry :=
  List.insertionSort keyGe l

/-- True when line 159's `sorted` raises `TypeError`: with two or more
entries every element takes part in at least one key comparison, and any
comparison against a `None` key raises. -/
def sortCrash (l : List FileEntry) : Bool :=
  decide (2 ≤ l.length) && l.any (fun e => e.created_datetime.isNone)

/-- The empty `keep_policy` dict. -/
def emptyPolicy : KeepPolicy :=
  { days := none, weeks := none, months := none, years := none }

/-- The observable outcome of a successful call: the returned deletion
list, plus the state of the caller's `file_list` after the call (Python
mutates the matching dicts in place at line 111). -/
structure PlanResult where
  deletions : List FileEntry
  entriesAfter : List FileEntry
deriving DecidableEq, Repr

instance : DecidableEq (Except PlanError PlanResult) := fun a b =>
  match a, b with
  | .error x, .error y => decidable_of_iff (x = y) (by simp)
  | .ok x, .ok y => decidable_of_iff (x = y) (by simp)
  | .error _, .ok _ => isFalse (by simp)
  | .ok _, .error _ => isFalse (by simp)

/-- Embedding of `find_deletion_candidates` (backup_mud.py:61-159).
Control flow follows the source: filter by name; if `max_keep` is truthy
return the surplus records immediately (lines 102-106, no mutation, no
sorting); otherwise parse every matching `createdTime` (lines 108-111,
`ValueError` on an unparseable string, raised before the policy check);
then require a truthy `keep_policy` (lines 113-121, `RuntimeError`
otherwise); run the four granularity passes and return the never-kept
records sorted by `created_datetime` descending (lines 123-159,
`TypeError` when that sort compares a missing key). -/
def find_deletion_candidates (file_list : List FileEntry) (filenamePre : String)
    (now : DateTime) (max_keep : Option Nat) (keep_policy : Option KeepPolicy) :
    Except PlanError PlanResult :=
  let matching := matching_files file_list filenamePre
  if maxKeepTruthy max_keep then
    if matching.length ≤ max_keep.getD 0 then
      .ok { deletions := [], entriesAfter := file_list }
    else
      .ok { deletions := matching.take (matching.length - max_keep.getD 0)
            entriesAfter := file_list }
  else if matching.any unparseableB then
    .error .valueError
  else if keepPolicyTruthy keep_policy then
    let enriched := matching.map setCreated
    let kept := runPasses enriched now (effPolicy (keep_policy.getD emptyPolicy))
    let cands := deletionPool enriched kept
    if sortCrash cands then
      .error .typeError
    else
      .ok { deletions := sortDesc cands
            entriesAfter := file_list.map
              (fun e => if strStarts e.name filenamePre then setCreated e else e) }
  else
    .error .runtimeError

/-- Hypothesis package for one parsed timestamp: absent, or a valid Python
datetime not later than the evaluation instant. -/
def TimeOk (now : DateTime) : Option DateTime → Prop
  | none => True
  | some d => Valid d ∧ ¬ Before now d

instance (now : DateTime) (od : Option DateTime) : Decidable (TimeOk now od) :=
  match od with
  | none => isTrue trivial
  | some d => inferInstanceAs (Decidable (Valid d ∧ ¬ Before now d))

@[simp]
theorem timeOk_some {now d : DateTime} : TimeOk now (some d) ↔ Valid d ∧ ¬ Before now d :=
  Iff.rfl

theorem before_trichot (a b : DateTime) : Before a b ∨ a = b ∨ Before b a := by
  obtain ⟨y1, m1, d1, t1⟩ := a
  obtain ⟨y2, m2, d2, t2⟩ := b
  simp only [Before, DateTime.mk.injEq]
  omega

theorem before_asymm {a b : DateTime} (h : Before a b) : ¬ Before b a := by
  unfold Before at *
  omega

theorem before_trans {a b c : DateTime} (h1 : Before a b) (h2 : Before b c) : Before a c := by
  unfold Before at *
  omega

theorem daysBeforeYear_succ (y : Nat) (hy : 1 ≤ y) :
    daysBeforeYear (y + 1) = daysBeforeYear y + (if isLeap y then 366 else 365) := by
  unfold daysBeforeYear
  split_ifs with h
  · simp only [isLeap, Bool.and_eq_true, Bool.or_eq_true, beq_iff_eq, bne_iff_ne, ne_eq] at h
    omega
  · simp only [isLeap, Bool.and_eq_true, Bool.or_eq_true, beq_iff_eq, bne_iff_ne, ne_eq,
      not_and, not_or, not_not] at h
    omega

theorem daysBeforeYear_mono : Monotone daysBeforeYear := by
  apply monotone_nat_of_le_succ
  intro n
  match n with
  | 0 => simp [daysBeforeYear]
  | Nat.succ m =>
    rw [daysBeforeYear_succ (m + 1) (by omega)]
    exact Nat.le_add_right _ _

theorem daysBeforeMonth_day_le (y m dd : Nat) (h1 : 1 ≤ m) (h2 : m ≤ 12)
    (hd : dd ≤ daysInMonth y m) :
    daysBeforeMonth y m + dd ≤ (if isLeap y then 366 else 365) := by
  interval_cases m <;>
    cases hl : isLeap y <;>
      simp_all [daysBeforeMonth, daysBeforeMonthBase, daysInMonth] <;> omega

theorem daysBeforeMonth_step (y ma mb : Nat) (h : ma < mb) (h1 : 1 ≤ ma) (h2 : mb ≤ 12) :
    daysBeforeMonth y ma + daysInMonth y ma ≤ daysBeforeMonth y mb := by
  have h2a : ma ≤ 11 := by omega
  interval_cases ma <;> interval_cases mb <;>
    cases hl : isLeap y <;>
      simp_all [daysBeforeMonth, daysBeforeMonthBase, daysInMonth]

theorem toordinal_lt_of_date_lt {a b : DateTime} (ha : Valid a) (hb : Valid b)
    (h : a.year < b.year ∨ (a.year = b.year ∧ (a.month < b.month ∨
      (a.month = b.month ∧ a.day < b.day)))) :
    toordinal a < toordinal b := by
  obtain ⟨hay, ham1, ham2, had1, had2, hat⟩ := ha
  obtain ⟨hby, hbm1, hbm2, hbd1, hbd2, hbt⟩ := hb
  rcases h with hy | ⟨hy, hm | ⟨hm, hd⟩⟩
  · have k1 : toordinal a ≤ daysBeforeYear (a.year + 1) := by
      have := daysBeforeMonth_day_le a.year a.month a.day ham1 ham2 had2
      have := daysBeforeYear_succ a.year hay
      unfold toordinal
      omega
    have k2 : daysBeforeYear (a.year + 1) ≤ daysBeforeYear b.year :=
      daysBeforeYear_mono (by omega)
    have k3 : daysBeforeYear b.year < toordinal b := by
      unfold toordinal
      omega
    omega
  · have k1 := daysBeforeMonth_step a.year a.month b.month hm ham1 hbm2
    unfold toordinal
    rw [hy] at k1 had2 ⊢
    omega
  · unfold toordinal
    rw [hy, hm]
    omega

theorem absMicro_le_of_not_before {a b : DateTime} (ha : Valid a) (hb : Valid b)
    (h : ¬ Before b a) : absMicro a ≤ absMicro b := by
  rcases before_trichot a b with hab | rfl | hba
  · rcases hab with hy | ⟨hy, hm | ⟨hm, hd | ⟨hd, ht⟩⟩⟩
    · have := toordinal_lt_of_date_lt ha hb (Or.inl hy)
      have := ha.2.2.2.2.2
      unfold absMicro dayMicro at *
      omega
    · have := toordinal_lt_of_date_lt ha hb (Or.inr ⟨hy, Or.inl hm⟩)
      have := ha.2.2.2.2.2
      unfold absMicro dayMicro at *
      omega
    · have := toordinal_lt_of_date_lt ha hb (Or.inr ⟨hy, Or.inr ⟨hm, hd⟩⟩)
      have := ha.2.2.2.2.2
      unfold absMicro dayMicro at *
      omega
    · have heq : toordinal a = toordinal b := by
        unfold toordinal
        rw [hy, hm, hd]
      unfold absMicro
      rw [heq]
      omega
  · exact Nat.le_refl _
  · exact absurd hba h

theorem toordinal_le_of_not_before {a b : DateTime} (ha : Valid a) (hb : Valid b)
    (h : ¬ Before b a) : toordinal a ≤ toordinal b := by
  have habs := absMicro_le_of_not_before ha hb h
  have h1 := ha.2.2.2.2.2
  have h2 := hb.2.2.2.2.2
  unfold absMicro at habs
  unfold dayMicro at habs h1 h2
  omega

theorem monthIdx_subMonths (d : DateTime) (g : Nat) :
    monthIdx (subMonths d g) = monthIdx d - g := by
  unfold subMonths
  unfold monthIdx
  dsimp only
  omega

theorem subMonths_month_bounds (d : DateTime) (g : Nat) :
    1 ≤ (subMonths d g).month ∧ (subMonths d g).month ≤ 12 := by
  unfold subMonths
  dsimp only
  omega

theorem subMonths_zero {d : DateTime} (hd : Valid d) : subMonths d 0 = d := by
  obtain ⟨hy, hm1, hm2, hd1, hd2, ht⟩ := hd
  have hyr : monthIdx d / 12 = d.year := by
    unfold monthIdx
    omega
  have hmo : monthIdx d % 12 + 1 = d.month := by
    unfold monthIdx
    omega
  obtain ⟨y, m, dd, t⟩ := d
  simp only at hyr hmo hd2
  simp [subMonths, hyr, hmo, Nat.min_eq_left hd2]

theorem subYears_zero {d : DateTime} (hd : Valid d) : subYears d 0 = d := by
  obtain ⟨hy, hm1, hm2, hd1, hd2, ht⟩ := hd
  obtain ⟨y, m, dd, t⟩ := d
  simp only at hd2
  simp [subYears, Nat.min_eq_left hd2]

theorem monthIdx_le_of_not_before {a b : DateTime} (hm : a.month ≤ 12)
    (h : ¬ Before b a) : monthIdx a ≤ monthIdx b := by
  unfold Before at h
  unfold monthIdx
  omega

theorem monthIdx_le_of_before {a b : DateTime} (hm : a.month ≤ 12)
    (h : Before a b) : monthIdx a ≤ monthIdx b := by
  unfold Before at h
  unfold monthIdx
  omega

theorem rep_fold_mem (qs : List (FileEntry × DateTime)) (acc : FileEntry × DateTime) :
    qs.foldl (fun best r => if dtLtB best.2 r.2 then r else best) acc = acc ∨
      qs.foldl (fun best r => if dtLtB best.2 r.2 then r else best) acc ∈ qs := by
  induction qs generalizing acc with
  | nil =>
    left
    rfl
  | cons r rs ih =>
    simp only [List.foldl_cons]
    rcases ih (if dtLtB acc.2 r.2 then r else acc) with h | h
    · rw [h]
      by_cases hc : dtLtB acc.2 r.2 = true
      · right
        simp [hc]
      · left
        simp [hc]
    · right
      exact List.mem_cons_of_mem _ h

theorem repOf_mem {l : List (FileEntry × DateTime)} {p : FileEntry × DateTime}
    (h : repOf l = some p) : p ∈ l := by
  match l with
  | [] => simp [repOf] at h
  | q :: qs =>
    simp only [repOf, Option.some.injEq] at h
    rcases rep_fold_mem qs q with h2 | h2
    · rw [h2] at h
      rw [← h]
      exact List.mem_cons_self _ _
    · rw [← h]
      exact List.mem_cons_of_mem _ h2

theorem mem_bucketedFiles {files : List FileEntry} {p : FileEntry × DateTime} :
    p ∈ bucketedFiles files ↔ p.1 ∈ files ∧ p.1.created_datetime = some p.2 := by
  unfold bucketedFiles
  rw [List.mem_filterMap]
  constructor
  · rintro ⟨e, he, hm⟩
    cases hcd : e.created_datetime with
    | none => rw [hcd] at hm; simp at hm
    | some d =>
      rw [hcd] at hm
      simp only [Option.some.injEq] at hm
      rw [← hm]
      exact ⟨he, hcd⟩
  · rintro ⟨h1, h2⟩
    refine ⟨p.1, h1, ?_⟩
    rw [h2]

theorem mem_bucketList {files : List FileEntry} {iv : Interval} {k : Nat}
    {p : FileEntry × DateTime} (h : p ∈ bucketList files iv k) :
    p ∈ bucketedFiles files ∧ date_component p.2 iv = k := by
  unfold bucketList at h
  rw [List.mem_filter] at h
  exact ⟨h.1, by simpa using h.2⟩

theorem passStep_subset (files : List FileEntry) (iv : Interval) (chk : DateTime → Bool)
    (kp : Finset Nat) (k : Nat) : kp ⊆ passStep files iv chk kp k := by
  unfold passStep
  cases repOf (bucketList files iv k) with
  | none => exact Finset.Subset.refl _
  | some p =>
    simp only
    split_ifs
    · exact Finset.Subset.refl _
    · exact Finset.subset_insert _ _
    · exact Finset.Subset.refl _

theorem passFold_subset (files : List FileEntry) (iv : Interval) (chk : DateTime → Bool) :
    ∀ (keys : List Nat) (kp : Finset Nat), kp ⊆ keys.foldl (passStep files iv chk) kp := by
  intro keys
  induction keys with
  | nil => intro kp; exact Finset.Subset.refl _
  | cons k ks ih =>
    intro kp
    exact (passStep_subset files iv chk kp k).trans (ih _)

theorem passInterval_subset (files : List FileEntry) (iv : Interval) (chk : DateTime → Bool)
    (kp : Finset Nat) : kp ⊆ passInterval files iv chk kp :=
  passFold_subset files iv chk _ kp

/-- A key's loop body can add an id only when its bucket representative
exists and passes the window test. -/
def stepMayInsert (files : List FileEntry) (iv : Interval) (chk : DateTime → Bool)
    (k : Nat) : Bool :=
  match repOf (bucketList files iv k) with
  | none => false
  | some p => chk p.2

theorem passStep_cases (files : List FileEntry) (iv : Interval) (chk : DateTime → Bool)
    (kp : Finset Nat) (k : Nat) :
    passStep files iv chk kp k = kp ∨
      (stepMayInsert files iv chk k = true ∧
        ∃ p, repOf (bucketList files iv k) = some p ∧
          passStep files iv chk kp k = insert p.1.id kp) := by
  unfold passStep stepMayInsert
  cases hrep : repOf (bucketList files iv k) with
  | none => exact Or.inl rfl
  | some p =>
    simp only
    split_ifs with h1 h2
    · exact Or.inl rfl
    · exact Or.inr ⟨h2, p, rfl, rfl⟩
    · exact Or.inl rfl

theorem passFold_new_card_le (files : List FileEntry) (iv : Interval) (chk : DateTime → Bool) :
    ∀ (keys : List Nat) (kp : Finset Nat),
      ((keys.foldl (passStep files iv chk) kp) \ kp).card ≤
        (keys.filter (fun k => stepMayInsert files iv chk k)).length := by
  intro keys
  induction keys with
  | nil =>
    intro kp
    simp
  | cons k ks ih =>
    intro kp
    simp only [List.foldl_cons]
    have hsplit : (ks.foldl (passStep files iv chk) (passStep files iv chk kp k) \ kp).card ≤
        (ks.foldl (passStep files iv chk) (passStep files iv chk kp k) \
          passStep files iv chk kp k).card + (passStep files iv chk kp k \ kp).card := by
      refine le_trans (Finset.card_le_card ?_) (Finset.card_union_le _ _)
      intro x hx
      rw [Finset.mem_sdiff] at hx
      rw [Finset.mem_union, Finset.mem_sdiff, Finset.mem_sdiff]
      by_cases hk : x ∈ passStep files iv chk kp k
      · exact Or.inr ⟨hk, hx.2⟩
      · exact Or.inl ⟨hx.1, hk⟩
    rcases passStep_cases files iv chk kp k with hid | ⟨hmay, p, hrep, hins⟩
    · rw [hid] at hsplit ⊢
      simp only [Finset.sdiff_self, Finset.card_empty, Nat.add_zero] at hsplit
      refine le_trans (le_trans hsplit (ih kp)) ?_
      rw [List.filter_cons]
      split_ifs
      · simp
      · exact Nat.le_refl _
    · have hone : (passStep files iv chk kp k \ kp).card ≤ 1 := by
        rw [hins]
        refine le_trans (Finset.card_le_card ?_) (Finset.card_singleton p.1.id).le
        intro x hx
        rw [Finset.mem_sdiff, Finset.mem_insert] at hx
        rcases hx.1 with h | h
        · simp [h]
        · exact absurd h hx.2
      rw [List.filter_cons, if_pos hmay]
      calc (ks.foldl (passStep files iv chk) (passStep files iv chk kp k) \ kp).card
          ≤ (ks.foldl (passStep files iv chk) (passStep files iv chk kp k) \
              passStep files iv chk kp k).card + (passStep files iv chk kp k \ kp).card :=
            hsplit
        _ ≤ (ks.filter (fun k => stepMayInsert files iv chk k)).length + 1 :=
            Nat.add_le_add (ih _) hone
        _ = (k :: ks.filter (fun k => stepMayInsert files iv chk k)).length := by
            simp [Nat.add_comm]

theorem intervalKeys_nodup (files : List FileEntry) (iv : Interval) :
    (intervalKeys files iv).Nodup := by
  unfold intervalKeys
  exact (List.perm_insertionSort _ _).symm.nodup (List.nodup_dedup _)

theorem stepMayInsert_key (files : List FileEntry) (iv : Interval) (chk : DateTime → Bool)
    (k : Nat) (h : stepMayInsert files iv chk k = true) :
    ∃ p, p ∈ bucketedFiles files ∧ date_component p.2 iv = k ∧ chk p.2 = true := by
  unfold stepMayInsert at h
  cases hrep : repOf (bucketList files iv k) with
  | none => rw [hrep] at h; simp at h
  | some p =>
    rw [hrep] at h
    obtain ⟨h1, h2⟩ := mem_bucketList (repOf_mem hrep)
    exact ⟨p, h1, h2, h⟩

theorem passInterval_new_card_le (files : List FileEntry) (iv : Interval)
    (chk : DateTime → Bool) (kp : Finset Nat) (S : Finset Nat)
    (hS : ∀ k, stepMayInsert files iv chk k = true → k ∈ S) :
    ((passInterval files iv chk kp) \ kp).card ≤ S.card := by
  refine le_trans (passFold_new_card_le files iv chk _ kp) ?_
  have hnd : ((intervalKeys files iv).filter (fun k => stepMayInsert files iv chk k)).Nodup :=
    (intervalKeys_nodup files iv).filter _
  rw [← List.toFinset_card_of_nodup hnd]
  refine Finset.card_le_card ?_
  intro k hk
  rw [List.mem_toFinset] at hk
  exact hS k (List.of_mem_filter hk)

theorem mem_passStep {files : List FileEntry} {iv : Interval} {chk : DateTime → Bool}
    {kp : Finset Nat} {k : Nat} {a : Nat} (h : a ∈ passStep files iv chk kp k) :
    a ∈ kp ∨ ∃ p, p ∈ bucketedFiles files ∧ p.1.id = a := by
  unfold passStep at h
  cases hrep : repOf (bucketList files iv k) with
  | none =>
    rw [hrep] at h
    exact Or.inl h
  | some p =>
    rw [hrep] at h
    simp only at h
    split_ifs at h with h1 h2
    · exact Or.inl h
    · rw [Finset.mem_insert] at h
      rcases h with h | h
      · exact Or.inr ⟨p, (mem_bucketList (repOf_mem hrep)).1, h.symm⟩
      · exact Or.inl h
    · exact Or.inl h

theorem mem_passFold {files : List FileEntry} {iv : Interval} {chk : DateTime → Bool} :
    ∀ {keys : List Nat} {kp : Finset Nat} {a : Nat},
      a ∈ keys.foldl (passStep files iv chk) kp →
        a ∈ kp ∨ ∃ p, p ∈ bucketedFiles files ∧ p.1.id = a := by
  intro keys
  induction keys with
  | nil =>
    intro kp a h
    exact Or.inl h
  | cons k ks ih =>
    intro kp a h
    simp only [List.foldl_cons] at h
    rcases ih h with h2 | h2
    · exact mem_passStep h2
    · exact Or.inr h2

theorem mem_passInterval {files : List FileEntry} {iv : Interval} {chk : DateTime → Bool}
    {kp : Finset Nat} {a : Nat} (h : a ∈ passInterval files iv chk kp) :
    a ∈ kp ∨ ∃ p, p ∈ bucketedFiles files ∧ p.1.id = a :=
  mem_passFold h

theorem mem_runPasses {files : List FileEntry} {now : DateTime} {p : EffPolicy} {a : Nat}
    (h : a ∈ runPasses files now p) : ∃ q, q ∈ bucketedFiles files ∧ q.1.id = a := by
  unfold runPasses intervalOrder at h
  simp only [List.foldl_cons, List.foldl_nil] at h
  rcases mem_passInterval h with h | h
  · rcases mem_passInterval h with h | h
    · rcases mem_passInterval h with h | h
      · rcases mem_passInterval h with h | h
        · simp at h
        · exact h
      · exact h
    · exact h
  · exact h

theorem days_key_mem {now d : DateTime} {g : Nat} (hnow : Valid now) (hd : Valid d)
    (hle : ¬ Before now d) (hchk : windowCheck now .days g d = true) :
    toordinal d ∈ Finset.Icc (toordinal now - g) (toordinal now) := by
  simp only [windowCheck, decide_eq_true_eq] at hchk
  have hup := toordinal_le_of_not_before hd hnow hle
  have h1 := hd.2.2.2.2.2
  have h2 := hnow.2.2.2.2.2
  rw [Finset.mem_Icc]
  unfold absMicro at hchk
  unfold dayMicro at hchk h1 h2
  constructor
  · omega
  · exact hup

theorem weeks_key_mem {now d : DateTime} {g : Nat} (hnow : Valid now) (hd : Valid d)
    (hle : ¬ Before now d) (hchk : windowCheck now .weeks g d = true) :
    toordinal d / 7 ∈ Finset.Icc (toordinal now / 7 - g) (toordinal now / 7) := by
  simp only [windowCheck, decide_eq_true_eq] at hchk
  have hup := toordinal_le_of_not_before hd hnow hle
  have h1 := hd.2.2.2.2.2
  have h2 := hnow.2.2.2.2.2
  rw [Finset.mem_Icc]
  unfold absMicro at hchk
  unfold dayMicro at hchk h1 h2
  constructor
  · omega
  · omega

theorem months_key_mem {now d : DateTime} {g : Nat} (hnow : Valid now) (hd : Valid d)
    (hle : ¬ Before now d) (hchk : windowCheck now .months g d = true) :
    d.month ∈ (Finset.Icc (monthIdx now - g) (monthIdx now)).image (fun i => i % 12 + 1) := by
  simp only [windowCheck, dtLtB, decide_eq_true_eq] at hchk
  have h1 : monthIdx (subMonths now g) ≤ monthIdx d :=
    monthIdx_le_of_before (subMonths_month_bounds now g).2 hchk
  rw [monthIdx_subMonths] at h1
  have h2 : monthIdx d ≤ monthIdx now :=
    monthIdx_le_of_not_before hd.2.2.1 hle
  rw [Finset.mem_image]
  refine ⟨monthIdx d, Finset.mem_Icc.mpr ⟨h1, h2⟩, ?_⟩
  have hm1 := hd.2.1
  have hm2 := hd.2.2.1
  unfold monthIdx
  omega

theorem years_key_mem {now d : DateTime} {g : Nat} (hd : Valid d)
    (hle : ¬ Before now d) (hchk : windowCheck now .years g d = true) :
    d.year ∈ Finset.Icc (now.year - g) now.year := by
  simp only [windowCheck, dtLtB, decide_eq_true_eq] at hchk
  have h1 : (subYears now g).year ≤ d.year := by
    unfold Before at hchk
    omega
  have h2 : d.year ≤ now.year := by
    unfold Before at hle
    omega
  rw [Finset.mem_Icc]
  refine ⟨?_, h2⟩
  have : (subYears now g).year = now.year - g := rfl
  omega

theorem windowCheck_zero {now d : DateTime} (hnow : Valid now) (hd : Valid d)
    (hnb : ¬ Before now d) : ∀ iv, windowCheck now iv 0 d = false := by
  intro iv
  have habs := absMicro_le_of_not_before hd hnow hnb
  cases iv with
  | days =>
    simp only [windowCheck, decide_eq_false_iff_not, Nat.not_lt]
    omega
  | weeks =>
    simp only [windowCheck, decide_eq_false_iff_not, Nat.not_lt]
    omega
  | months =>
    simp only [windowCheck, dtLtB]
    rw [subMonths_zero hnow]
    exact decide_eq_false hnb
  | years =>
    simp only [windowCheck, dtLtB]
    rw [subYears_zero hnow]
    exact decide_eq_false hnb

theorem passStep_zero {files : List FileEntry} {now : DateTime} {iv : Interval}
    {kp : Finset Nat} {k : Nat} (hnow : Valid now)
    (hrec : ∀ e ∈ files, TimeOk now e.created_datetime) :
    passStep files iv (windowCheck now iv 0) kp k = kp := by
  unfold passStep
  cases hrep : repOf (bucketList files iv k) with
  | none => rfl
  | some p =>
    simp only
    obtain ⟨hpb, _⟩ := mem_bucketList (repOf_mem hrep)
    obtain ⟨hmem, hcd⟩ := mem_bucketedFiles.mp hpb
    have ht := hrec p.1 hmem
    rw [hcd] at ht
    obtain ⟨hv, hnb⟩ := timeOk_some.mp ht
    have hz : windowCheck now iv 0 p.2 = false := windowCheck_zero hnow hv hnb iv
    split_ifs with h1 h2
    · rfl
    · rw [hz] at h2
      exact absurd h2 (by simp)
    · rfl

/-- The C2 pass bound specialised to each granularity via
`passInterval_new_card_le` and the window membership lemmas. -/
theorem pass_bound_core (files : List FileEntry) (now : DateTime) (iv : Interval)
    (g : Nat) (kp : Finset Nat) (hnow : Valid now)
    (hrec : ∀ e ∈ files, TimeOk now e.created_datetime) :
    ((passInterval files iv (windowCheck now iv g) kp) \ kp).card ≤ g + 1 := by
  have hextract : ∀ k, stepMayInsert files iv (windowCheck now iv g) k = true →
      ∃ p : FileEntry × DateTime, Valid p.2 ∧ ¬ Before now p.2 ∧
        date_component p.2 iv = k ∧ windowCheck now iv g p.2 = true := by
    intro k hk
    obtain ⟨p, hpb, hpc, hchk⟩ := stepMayInsert_key _ _ _ _ hk
    obtain ⟨hmem, hcd⟩ := mem_bucketedFiles.mp hpb
    have ht := hrec p.1 hmem
    rw [hcd] at ht
    obtain ⟨hv, hnb⟩ := timeOk_some.mp ht
    exact ⟨p, hv, hnb, hpc, hchk⟩
  cases iv with
  | days =>
    refine le_trans (passInterval_new_card_le files _ _ kp
      (Finset.Icc (toordinal now - g) (toordinal now)) ?_) ?_
    · intro k hk
      obtain ⟨p, hv, hnb, hpc, hchk⟩ := hextract k hk
      rw [← hpc]
      exact days_key_mem hnow hv hnb hchk
    · rw [Nat.card_Icc]
      omega
  | weeks =>
    refine le_trans (passInterval_new_card_le files _ _ kp
      (Finset.Icc (toordinal now / 7 - g) (toordinal now / 7)) ?_) ?_
    · intro k hk
      obtain ⟨p, hv, hnb, hpc, hchk⟩ := hextract k hk
      rw [← hpc]
      exact weeks_key_mem hnow hv hnb hchk
    · rw [Nat.card_Icc]
      omega
  | months =>
    refine le_trans (passInterval_new_card_le files _ _ kp
      ((Finset.Icc (monthIdx now - g) (monthIdx now)).image (fun i => i % 12 + 1)) ?_) ?_
    · intro k hk
      obtain ⟨p, hv, hnb, hpc, hchk⟩ := hextract k hk
      rw [← hpc]
      exact months_key_mem hnow hv hnb hchk
    · refine le_trans Finset.card_image_le ?_
      rw [Nat.card_Icc]
      omega
  | years =>
    refine le_trans (passInterval_new_card_le files _ _ kp
      (Finset.Icc (now.year - g) now.year) ?_) ?_
    · intro k hk
      obtain ⟨p, hv, hnb, hpc, hchk⟩ := hextract k hk
      rw [← hpc]
      exact years_key_mem hv hnb hchk
    · rw [Nat.card_Icc]
      omega

theorem not_before_trans {a b c : DateTime} (h1 : ¬ Before a b) (h2 : ¬ Before b c) :
    ¬ Before a c := by
  unfold Before at *
  omega

theorem optLtB_asymm {x y : Option DateTime} (h : optLtB x y = true) : optLtB y x = false := by
  cases x with
  | none =>
    cases y with
    | none => simp [optLtB] at h
    | some b => simp [optLtB]
  | some a =>
    cases y with
    | none => simp [optLtB] at h
    | some b =>
      simp only [optLtB, dtLtB, decide_eq_true_eq] at h
      simp only [optLtB, dtLtB, decide_eq_false_iff_not]
      exact before_asymm h

theorem optLtB_neg_trans {x y z : Option DateTime} (h1 : optLtB x y = false)
    (h2 : optLtB y z = false) : optLtB x z = false := by
  cases x <;> cases y <;> cases z <;>
    simp only [optLtB, dtLtB, decide_eq_false_iff_not] at h1 h2 ⊢ <;>
      first
        | trivial
        | exact not_before_trans h1 h2

instance : IsTotal FileEntry keyGe := by
  constructor
  intro a b
  unfold keyGe
  cases h : optLtB a.created_datetime b.created_datetime with
  | false => exact Or.inl rfl
  | true => exact Or.inr (optLtB_asymm h)

instance : IsTrans FileEntry keyGe := by
  constructor
  intro a b c hab hbc
  unfold keyGe at *
  exact optLtB_neg_trans hab hbc

theorem sortDesc_pairwise (l : List FileEntry) : (sortDesc l).Pairwise keyGe :=
  List.sorted_insertionSort keyGe l

theorem find_count_eq (fl : List FileEntry) (pre : String) (now : DateTime) (k : Nat)
    (kp : Option KeepPolicy) (hk : k ≠ 0) :
    find_deletion_candidates fl pre now (some k) kp =
      (if (matching_files fl pre).length ≤ k then
        .ok { deletions := [], entriesAfter := fl }
      else
        .ok { deletions := (matching_files fl pre).take ((matching_files fl pre).length - k)
              entriesAfter := fl }) := by
  have ht : maxKeepTruthy (some k) = true := by
    simp [maxKeepTruthy]
    exact hk
  unfold find_deletion_candidates
  rw [ht]
  simp only [if_true, Option.getD_some]

theorem find_calendar_eq (fl : List FileEntry) (pre : String) (now : DateTime)
    (kp : Option KeepPolicy) :
    find_deletion_candidates fl pre now none kp =
      (if (matching_files fl pre).any unparseableB then .error .valueError
      else if keepPolicyTruthy kp then
        (if sortCrash (deletionPool ((matching_files fl pre).map setCreated)
              (runPasses ((matching_files fl pre).map setCreated) now
                (effPolicy (kp.getD emptyPolicy)))) then
          .error .typeError
        else
          .ok { deletions := sortDesc (deletionPool ((matching_files fl pre).map setCreated)
                  (runPasses ((matching_files fl pre).map setCreated) now
                    (effPolicy (kp.getD emptyPolicy))))
                entriesAfter := fl.map
                  (fun e => if strStarts e.name pre then setCreated e else e) })
      else .error .runtimeError) := by
  rfl

/-- Order hypothesis for count mode (spec section 4.2): whenever two
entries both carry parseable creation timestamps, the earlier entry in the
list is not newer than the later one. -/
def entryTimeLe (a b : FileEntry) : Prop :=
  match a.createdTime, b.createdTime with
  | some (some da), some (some db) => ¬ Before db da
  | _, _ => True

instance : DecidableRel entryTimeLe := fun a b =>
  match ha : a.createdTime, hb : b.createdTime with
  | some (some da), some (some db) =>
    decidable_of_iff (¬ Before db da) (by unfold entryTimeLe; rw [ha, hb])
  | some (some _), some none => isTrue (by unfold entryTimeLe; simp_all)
  | some (some _), none => isTrue (by unfold entryTimeLe; simp_all)
  | some none, _ => isTrue (by unfold entryTimeLe; simp_all)
  | none, _ => isTrue (by unfold entryTimeLe; simp_all)

/-- Claim C1 (corrected).  For every positive `max_keep = k` count mode
behaves as the spec says: at most `k` matching records gives an empty
deletion list, more than `k` gives exactly the oldest `count - k` records
(the leading records of the ascending-ordered matching list, each not
newer than any record kept).  The correction: `max_keep = 0` does not
enter count mode at all — Python's `if max_keep:` treats 0 as falsy, so
the call falls through to the calendar-policy path. -/
theorem count_mode_boundary (fl : List FileEntry) (pre : String) (now : DateTime)
    (k : Nat) (kp : Option KeepPolicy) (hk : 1 ≤ k)
    (hasc : (matching_files fl pre).Pairwise entryTimeLe) :
    ((matching_files fl pre).length ≤ k →
      find_deletion_candidates fl pre now (some k) kp =
        .ok { deletions := [], entriesAfter := fl }) ∧
    (k < (matching_files fl pre).length →
      find_deletion_candidates fl pre now (some k) kp =
        .ok { deletions := (matching_files fl pre).take ((matching_files fl pre).length - k)
              entriesAfter := fl } ∧
      ∀ x ∈ (matching_files fl pre).take ((matching_files fl pre).length - k),
        ∀ y ∈ (matching_files fl pre).drop ((matching_files fl pre).length - k),
          entryTimeLe x y) ∧
    find_deletion_candidates fl pre now (some 0) kp =
      find_deletion_candidates fl pre now none kp := by
  refine ⟨?_, ?_, rfl⟩
  · intro hle
    rw [find_count_eq fl pre now k kp (by omega), if_pos hle]
  · intro hlt
    refine ⟨by rw [find_count_eq fl pre now k kp (by omega), if_neg (by omega)], ?_⟩
    intro x hx y hy
    have hsplit := List.take_append_drop ((matching_files fl pre).length - k)
      (matching_files fl pre)
    rw [← hsplit] at hasc
    rw [List.pairwise_append] at hasc
    exact hasc.2.2 x hx y hy

/-- Witness for C1 at a concrete input: two ascending matching records,
`maxKeep = 1`, instantiating both hypotheses and taking the `maxKeep = 0`
fall-through conjunct. -/
theorem count_mode_boundary_witness :
    (1 : Nat) ≤ 1 ∧
    find_deletion_candidates
      [{ id := 1, name := "b", createdTime := some (some { year := 2020, month := 1, day := 1, tod := 0 }),
         created_datetime := none },
       { id := 2, name := "b", createdTime := some (some { year := 2020, month := 1, day := 2, tod := 0 }),
         created_datetime := none }] ("") { year := 2020, month := 1, day := 3, tod := 0 } (some 0) none =
    find_deletion_candidates
      [{ id := 1, name := "b", createdTime := some (some { year := 2020, month := 1, day := 1, tod := 0 }),
         created_datetime := none },
       { id := 2, name := "b", createdTime := some (some { year := 2020, month := 1, day := 2, tod := 0 }),
         created_datetime := none }] ("") { year := 2020, month := 1, day := 3, tod := 0 } none none :=
  ⟨by decide,
    (count_mode_boundary
      [{ id := 1, name := "b", createdTime := some (some { year := 2020, month := 1, day := 1, tod := 0 }),
         created_datetime := none },
       { id := 2, name := "b", createdTime := some (some { year := 2020, month := 1, day := 2, tod := 0 }),
         created_datetime := none }] ("") { year := 2020, month := 1, day := 3, tod := 0 } 1 none
      (by decide) (by decide)).2.2⟩

/-- Counterexample for C1 as frozen: with `maxKeep = 0` (a non-negative
count) and one matching record, the spec predicts the record is deleted,
but the planner raises the `RuntimeError` of line 121 instead, because
`max_keep = 0` is falsy and no calendar policy was given. -/
theorem count_mode_boundary_cex :
    find_deletion_candidates
      [{ id := 1, name := "b", createdTime := some (some { year := 2020, month := 1, day := 1, tod := 0 }),
         created_datetime := none }] ("")
      { year := 2020, month := 1, day := 3, tod := 0 } (some 0) none =
      .error .runtimeError := by
  decide

/-- Claim C3 (corrected).  Only the calendar path sorts its result: every
successful calendar-mode invocation returns deletions in non-increasing
`created_datetime` order (line 159; with tied timestamps the order is
non-strict).  Count mode (lines 102-106) performs no sort at all: it
returns the surplus records in input-list order, which under the
documented ascending precondition is oldest first — the opposite of the
claimed descending order. -/
theorem deletion_order :
    (∀ (fl : List FileEntry) (pre : String) (now : DateTime) (kp : Option KeepPolicy)
        (res : PlanResult),
      find_deletion_candidates fl pre now none kp = .ok res →
        res.deletions.Pairwise keyGe) ∧
    (∀ (fl : List FileEntry) (pre : String) (now : DateTime) (k : Nat) (kp : Option KeepPolicy),
      1 ≤ k →
        find_deletion_candidates fl pre now (some k) kp =
          (if (matching_files fl pre).length ≤ k then
            .ok { deletions := [], entriesAfter := fl }
          else
            .ok { deletions := (matching_files fl pre).take ((matching_files fl pre).length - k)
                  entriesAfter := fl })) := by
  constructor
  · intro fl pre now kp res h
    rw [find_calendar_eq] at h
    by_cases h1 : (matching_files fl pre).any unparseableB = true
    · rw [if_pos h1] at h
      exact absurd h (by simp)
    · rw [if_neg h1] at h
      by_cases h2 : keepPolicyTruthy kp = true
      · rw [if_pos h2] at h
        split_ifs at h with h3
        all_goals
          first
            | exact Except.noConfusion h
            | (rw [← Except.ok.inj h]
               exact sortDesc_pairwise _)
      · rw [if_neg h2] at h
        exact absurd h (by simp)
  · intro fl pre now k kp hk
    exact find_count_eq fl pre now k kp (by omega)

/-- Witness for C3: a concrete successful calendar invocation, with the
sortedness conclusion transported to it. -/
theorem deletion_order_witness :
    ((find_deletion_candidates
      [{ id := 1, name := "b", createdTime := some (some { year := 2020, month := 1, day := 1, tod := 5 }),
         created_datetime := none },
       { id := 2, name := "b", createdTime := some (some { year := 2020, month := 1, day := 1, tod := 9 }),
         created_datetime := none }] ("") { year := 2020, month := 1, day := 1, tod := 20 } none
      (some { days := some 0, weeks := none, months := none, years := none }) =
      .ok { deletions :=
              [{ id := 2, name := "b", createdTime := some (some { year := 2020, month := 1, day := 1, tod := 9 }),
                 created_datetime := some { year := 2020, month := 1, day := 1, tod := 9 } },
               { id := 1, name := "b", createdTime := some (some { year := 2020, month := 1, day := 1, tod := 5 }),
                 created_datetime := some { year := 2020, month := 1, day := 1, tod := 5 } }]
            entriesAfter :=
              [{ id := 1, name := "b", createdTime := some (some { year := 2020, month := 1, day := 1, tod := 5 }),
                 created_datetime := some { year := 2020, month := 1, day := 1, tod := 5 } },
               { id := 2, name := "b", createdTime := some (some { year := 2020, month := 1, day := 1, tod := 9 }),
                 created_datetime := some { year := 2020, month := 1, day := 1, tod := 9 } }] }) ∧
      List.Pairwise keyGe
        [{ id := 2, name := "b", createdTime := some (some { year := 2020, month := 1, day := 1, tod := 9 }),
           created_datetime := some { year := 2020, month := 1, day := 1, tod := 9 } },
         { id := 1, name := "b", createdTime := some (some { year := 2020, month := 1, day := 1, tod := 5 }),
           created_datetime := some { year := 2020, month := 1, day := 1, tod := 5 } }]) :=
  ⟨by decide,
    deletion_order.1
      [{ id := 1, name := "b", createdTime := some (some { year := 2020, month := 1, day := 1, tod := 5 }),
         created_datetime := none },
       { id := 2, name := "b", createdTime := some (some { year := 2020, month := 1, day := 1, tod := 9 }),
         created_datetime := none }] ("") { year := 2020, month := 1, day := 1, tod := 20 }
      (some { days := some 0, weeks := none, months := none, years := none })
      { deletions :=
          [{ id := 2, name := "b", createdTime := some (some { year := 2020, month := 1, day := 1, tod := 9 }),
             created_datetime := some { year := 2020, month := 1, day := 1, tod := 9 } },
           { id := 1, name := "b", createdTime := some (some { year := 2020, month := 1, day := 1, tod := 5 }),
             created_datetime := some { year := 2020, month := 1, day := 1, tod := 5 } }]
        entriesAfter :=
          [{ id := 1, name := "b", createdTime := some (some { year := 2020, month := 1, day := 1, tod := 5 }),
             created_datetime := some { year := 2020, month := 1, day := 1, tod := 5 } },
           { id := 2, name := "b", createdTime := some (some { year := 2020, month := 1, day := 1, tod := 9 }),
             created_datetime := some { year := 2020, month := 1, day := 1, tod := 9 } }] }
      (by decide)⟩

/-- Counterexample for C3 as frozen: a count-mode invocation on three
ascending matching records with `maxKeep = 1` returns the two oldest
records in ascending creation order (the first deletion candidate was
created before the second), not sorted descending. -/
theorem deletion_order_cex :
    (find_deletion_candidates
      [{ id := 1, name := "b", createdTime := some (some { year := 2020, month := 1, day := 1, tod := 0 }),
         created_datetime := none },
       { id := 2, name := "b", createdTime := some (some { year := 2020, month := 1, day := 2, tod := 0 }),
         created_datetime := none },
       { id := 3, name := "b", createdTime := some (some { year := 2020, month := 1, day := 3, tod := 0 }),
         created_datetime := none }] ("") { year := 2020, month := 1, day := 4, tod := 0 } (some 1) none =
      .ok { deletions :=
              [{ id := 1, name := "b", createdTime := some (some { year := 2020, month := 1, day := 1, tod := 0 }),
                 created_datetime := none },
               { id := 2, name := "b", createdTime := some (some { year := 2020, month := 1, day := 2, tod := 0 }),
                 created_datetime := none }]
            entriesAfter :=
              [{ id := 1, name := "b", createdTime := some (some { year := 2020, month := 1, day := 1, tod := 0 }),
                 created_datetime := none },
               { id := 2, name := "b", createdTime := some (some { year := 2020, month := 1, day := 2, tod := 0 }),
                 created_datetime := none },
               { id := 3, name := "b", createdTime := some (some { year := 2020, month := 1, day := 3, tod := 0 }),
                 created_datetime := none }] }) ∧
    Before { year := 2020, month := 1, day := 1, tod := 0 } { year := 2020, month := 1, day := 2, tod := 0 } := by
  constructor
  · decide
  · decide

/-- Claim C4 (corrected).  Only the neither-policy case fails with the
`RuntimeError` of line 121 (provided parsing did not fail first, since
lines 108-111 run before the policy check).  When both policies are
supplied there is no error: `max_keep` takes precedence, the calendar
policy is ignored entirely, and a decision is returned
(docstring line 83: "This parameter does nothing if max_keep is
specified"). -/
theorem policy_validation :
    (∀ (fl : List FileEntry) (pre : String) (now : DateTime) (mk : Option Nat)
        (kp : Option KeepPolicy),
      maxKeepTruthy mk = false → keepPolicyTruthy kp = false →
        (matching_files fl pre).any unparseableB = false →
        find_deletion_candidates fl pre now mk kp = .error .runtimeError) ∧
    (∀ (fl : List FileEntry) (pre : String) (now : DateTime) (mk : Option Nat)
        (kp : Option KeepPolicy),
      maxKeepTruthy mk = true →
        find_deletion_candidates fl pre now mk kp = find_deletion_candidates fl pre now mk none ∧
        ∃ dels, find_deletion_candidates fl pre now mk kp =
          .ok { deletions := dels, entriesAfter := fl }) := by
  constructor
  · intro fl pre now mk kp hmk hkp hunp
    cases mk with
    | none =>
      rw [find_calendar_eq, hunp]
      simp [hkp]
    | some k =>
      have hk0 : k = 0 := by
        simp [maxKeepTruthy] at hmk
        exact hmk
      subst hk0
      rw [show find_deletion_candidates fl pre now (some 0) kp =
        find_deletion_candidates fl pre now none kp from rfl]
      rw [find_calendar_eq, hunp]
      simp [hkp]
  · intro fl pre now mk kp hmk
    cases mk with
    | none => simp [maxKeepTruthy] at hmk
    | some k =>
      have hk : k ≠ 0 := by
        simp [maxKeepTruthy] at hmk
        exact hmk
      rw [find_count_eq fl pre now k kp hk, find_count_eq fl pre now k none hk]
      refine ⟨rfl, ?_⟩
      split_ifs
      · exact ⟨[], rfl⟩
      · exact ⟨_, rfl⟩

/-- Witness for C4: neither policy supplied at a concrete input fails with
the `RuntimeError`. -/
theorem policy_validation_witness :
    maxKeepTruthy none = false ∧ keepPolicyTruthy none = false ∧
    (matching_files
      [{ id := 1, name := "b", createdTime := none, created_datetime := none }] ("")).any
      unparseableB = false ∧
    find_deletion_candidates
      [{ id := 1, name := "b", createdTime := none, created_datetime := none }] ("")
      { year := 2020, month := 1, day := 1, tod := 0 } none none = .error .runtimeError :=
  ⟨by decide, by decide, by decide,
    policy_validation.1
      [{ id := 1, name := "b", createdTime := none, created_datetime := none }] ("")
      { year := 2020, month := 1, day := 1, tod := 0 } none none
      (by decide) (by decide) (by decide)⟩

/-- Counterexample for C4 as frozen: supplying both a count policy and a
calendar policy does not fail — the planner returns a decision (here the
empty one), with the count policy silently winning. -/
theorem policy_validation_cex :
    find_deletion_candidates
      [{ id := 1, name := "b", createdTime := some (some { year := 2020, month := 1, day := 1, tod := 0 }),
         created_datetime := none }] ("") { year := 2020, month := 1, day := 2, tod := 0 } (some 4)
      (some { days := some 7, weeks := some 4, months := some 12, years := some 10 }) =
      .ok { deletions := []
            entriesAfter :=
              [{ id := 1, name := "b", createdTime := some (some { year := 2020, month := 1, day := 1, tod := 0 }),
                 created_datetime := none }] } := by
  decide

/-- Claim C5 (corrected).  In calendar mode a record whose `createdTime`
key is absent is indeed excluded from bucketing — only records with a
parsed `created_datetime` can ever enter the kept set.  But the planner is
not failure-tolerant: (a) any matching record with an unparseable
`createdTime` makes the invocation fail with the `ValueError` of line 111;
(c) a missing-timestamp record among the deletion candidates makes the
final sort of line 159 fail with a `TypeError` whenever the candidate list
has at least two entries, and the invocation only returns a decision when
that sort does not crash. -/
theorem malformed_timestamps :
    (∀ (fl : List FileEntry) (pre : String) (now : DateTime) (kp : Option KeepPolicy),
      (matching_files fl pre).any unparseableB = true →
        find_deletion_candidates fl pre now none kp = .error .valueError) ∧
    (∀ (files : List FileEntry) (now : DateTime) (p : EffPolicy) (a : Nat),
      a ∈ runPasses files now p →
        ∃ q, q ∈ bucketedFiles files ∧ q.1.id = a ∧ q.1.created_datetime = some q.2) ∧
    (∀ (fl : List FileEntry) (pre : String) (now : DateTime) (kp : Option KeepPolicy),
      (matching_files fl pre).any unparseableB = false →
      keepPolicyTruthy kp = true →
        (sortCrash (deletionPool ((matching_files fl pre).map setCreated)
            (runPasses ((matching_files fl pre).map setCreated) now
              (effPolicy (kp.getD emptyPolicy)))) = true →
          find_deletion_candidates fl pre now none kp = .error .typeError) ∧
        (sortCrash (deletionPool ((matching_files fl pre).map setCreated)
            (runPasses ((matching_files fl pre).map setCreated) now
              (effPolicy (kp.getD emptyPolicy)))) = false →
          find_deletion_candidates fl pre now none kp =
            .ok { deletions := sortDesc (deletionPool ((matching_files fl pre).map setCreated)
                    (runPasses ((matching_files fl pre).map setCreated) now
                      (effPolicy (kp.getD emptyPolicy))))
                  entriesAfter := fl.map
                    (fun e => if strStarts e.name pre then setCreated e else e) })) := by
  refine ⟨?_, ?_, ?_⟩
  · intro fl pre now kp hunp
    rw [find_calendar_eq, hunp]
    simp
  · intro files now p a ha
    obtain ⟨q, hq, hid⟩ := mem_runPasses ha
    exact ⟨q, hq, hid, (mem_bucketedFiles.mp hq).2⟩
  · intro fl pre now kp hunp hkp
    constructor
    · intro hcr
      rw [find_calendar_eq, hunp]
      simp only [Bool.false_eq_true, if_false]
      rw [if_pos hkp, if_pos hcr]
    · intro hcr
      rw [find_calendar_eq, hunp]
      simp only [Bool.false_eq_true, if_false]
      rw [if_pos hkp, if_neg (by rw [hcr]; simp)]

/-- Witness for C5: a concrete unparseable timestamp fails with
`ValueError`. -/
theorem malformed_timestamps_witness :
    (matching_files
      [{ id := 1, name := "b", createdTime := some none, created_datetime := none }] ("")).any
      unparseableB = true ∧
    find_deletion_candidates
      [{ id := 1, name := "b", createdTime := some none, created_datetime := none }] ("")
      { year := 2020, month := 1, day := 1, tod := 0 } none
      (some { days := some 7, weeks := none, months := none, years := none }) =
      .error .valueError :=
  ⟨by decide,
    malformed_timestamps.1
      [{ id := 1, name := "b", createdTime := some none, created_datetime := none }] ("")
      { year := 2020, month := 1, day := 1, tod := 0 }
      (some { days := some 7, weeks := none, months := none, years := none }) (by decide)⟩

/-- Counterexample for C5 as frozen: a calendar-mode invocation whose only
matching record has an unparseable `createdTime` fails with `ValueError`
instead of returning a deletion decision. -/
theorem malformed_timestamps_cex :
    find_deletion_candidates
      [{ id := 5, name := "b", createdTime := some none, created_datetime := none },
       { id := 6, name := "b", createdTime := some (some { year := 2019, month := 6, day := 1, tod := 0 }),
         created_datetime := none }] ("")
      { year := 2020, month := 1, day := 1, tod := 0 } none
      (some { days := some 7, weeks := none, months := none, years := none }) =
      .error .valueError := by
  decide

/-- Claim C8 (corrected).  Count mode leaves the caller's entries
untouched, but calendar mode mutates them: line 111 writes a
`created_datetime` key into every matching record whose `createdTime`
parses.  The mutation adds only that key — `id`, `name` and `createdTime`
are never changed — and non-matching entries are left alone. -/
theorem input_mutation :
    (∀ (fl : List FileEntry) (pre : String) (now : DateTime) (mk : Option Nat)
        (kp : Option KeepPolicy),
      maxKeepTruthy mk = true →
        ∃ dels, find_deletion_candidates fl pre now mk kp =
          .ok { deletions := dels, entriesAfter := fl }) ∧
    (∀ (fl : List FileEntry) (pre : String) (now : DateTime) (kp : Option KeepPolicy)
        (res : PlanResult),
      find_deletion_candidates fl pre now none kp = .ok res →
        res.entriesAfter = fl.map
          (fun e => if strStarts e.name pre then setCreated e else e)) ∧
    (∀ e : FileEntry, (setCreated e).id = e.id ∧ (setCreated e).name = e.name ∧
      (setCreated e).createdTime = e.createdTime) := by
  refine ⟨?_, ?_, ?_⟩
  · intro fl pre now mk kp hmk
    cases mk with
    | none => simp [maxKeepTruthy] at hmk
    | some k =>
      have hk : k ≠ 0 := by
        simp [maxKeepTruthy] at hmk
        exact hmk
      rw [find_count_eq fl pre now k kp hk]
      split_ifs
      · exact ⟨[], rfl⟩
      · exact ⟨_, rfl⟩
  · intro fl pre now kp res h
    rw [find_calendar_eq] at h
    by_cases h1 : (matching_files fl pre).any unparseableB = true
    · rw [if_pos h1] at h
      exact Except.noConfusion h
    · rw [if_neg h1] at h
      by_cases h2 : keepPolicyTruthy kp = true
      · rw [if_pos h2] at h
        split_ifs at h
        all_goals
          first
            | exact Except.noConfusion h
            | (rw [← Except.ok.inj h])
      · rw [if_neg h2] at h
        exact Except.noConfusion h
  · intro e
    refine ⟨?_, ?_, ?_⟩
    all_goals
      unfold setCreated
      split
      all_goals rfl

/-- Witness for C8: a truthy count policy at a concrete input returns the
caller's list unchanged. -/
theorem input_mutation_witness :
    maxKeepTruthy (some 2) = true ∧
    ∃ dels, find_deletion_candidates
      [{ id := 1, name := "b", createdTime := some (some { year := 2020, month := 1, day := 1, tod := 0 }),
         created_datetime := none }] ("")
      { year := 2020, month := 1, day := 2, tod := 0 } (some 2) none =
      .ok { deletions := dels
            entriesAfter :=
              [{ id := 1, name := "b", createdTime := some (some { year := 2020, month := 1, day := 1, tod := 0 }),
                 created_datetime := none }] } :=
  ⟨by decide,
    input_mutation.1
      [{ id := 1, name := "b", createdTime := some (some { year := 2020, month := 1, day := 1, tod := 0 }),
         created_datetime := none }] ("")
      { year := 2020, month := 1, day := 2, tod := 0 } (some 2) none (by decide)⟩

/-- Counterexample for C8 as frozen: a successful calendar invocation
hands back the caller's entry with a `created_datetime` field written into
it — the post-call entry differs from the supplied one, so the input was
mutated, not left unchanged. -/
theorem input_mutation_cex :
    (find_deletion_candidates
      [{ id := 9, name := "b", createdTime := some (some { year := 2019, month := 12, day := 31, tod := 5 }),
         created_datetime := none }] ("")
      { year := 2020, month := 1, day := 1, tod := 43 } none
      (some { days := some 7, weeks := none, months := none, years := none }) =
      .ok { deletions := []
            entriesAfter :=
              [{ id := 9, name := "b", createdTime := some (some { year := 2019, month := 12, day := 31, tod := 5 }),
                 created_datetime := some { year := 2019, month := 12, day := 31, tod := 5 } }] }) ∧
    ({ id := 9, name := "b", createdTime := some (some { year := 2019, month := 12, day := 31, tod := 5 }),
       created_datetime := some { year := 2019, month := 12, day := 31, tod := 5 } } : FileEntry) ≠
    { id := 9, name := "b", createdTime := some (some { year := 2019, month := 12, day := 31, tod := 5 }),
      created_datetime := none } := by
  constructor
  · decide
  · decide

/-- Claim C6 (confirmed).  The `months` bucket key of `date_component`
(backup_mud.py:95, `getattr(dtobj, 'month')`) is the bare month-of-year:
two instants get the same months key exactly when their `month` attributes
agree, and in particular instants in the same calendar month of arbitrary
different years always collide into one bucket. -/
theorem months_bucket_key :
    (∀ d1 d2 : DateTime,
      date_component d1 .months = date_component d2 .months ↔ d1.month = d2.month) ∧
    (∀ y1 y2 m dd1 dd2 t1 t2 : Nat,
      date_component { year := y1, month := m, day := dd1, tod := t1 } .months =
        date_component { year := y2, month := m, day := dd2, tod := t2 } .months) := by
  constructor
  · intro d1 d2
    exact Iff.rfl
  · intro y1 y2 m dd1 dd2 t1 t2
    rfl

/-- Witness for C6: the months key of May 2019 equals the months key of
May 2023, though the years differ. -/
theorem months_bucket_key_witness :
    date_component { year := 2019, month := 5, day := 1, tod := 0 } .months =
      date_component { year := 2023, month := 5, day := 28, tod := 77 } .months :=
  months_bucket_key.2 2019 2023 5 1 28 0 77

/-- Claim C7 (confirmed).  The keep computation is the fold of the four
granularity passes in exactly the order days, weeks, months, years
(the OrderedDict of lines 115-119); a key whose bucket representative is
already in the kept set leaves the set unchanged and does so for any
window test whatsoever (line 149-150's `continue` fires before the window
comparison); and each pass only grows the kept set, so an earlier
granularity's verdict survives every later pass. -/
theorem granularity_order_precedence :
    (∀ (files : List FileEntry) (now : DateTime) (p : EffPolicy),
      runPasses files now p =
        passInterval files .years (windowCheck now .years p.years)
          (passInterval files .months (windowCheck now .months p.months)
            (passInterval files .weeks (windowCheck now .weeks p.weeks)
              (passInterval files .days (windowCheck now .days p.days) ∅)))) ∧
    (∀ (files : List FileEntry) (iv : Interval) (chk chk2 : DateTime → Bool)
        (kp : Finset Nat) (k : Nat) (p : FileEntry × DateTime),
      repOf (bucketList files iv k) = some p → p.1.id ∈ kp →
        passStep files iv chk kp k = kp ∧
        passStep files iv chk kp k = passStep files iv chk2 kp k) ∧
    (∀ (files : List FileEntry) (iv : Interval) (chk : DateTime → Bool) (kp : Finset Nat),
      kp ⊆ passInterval files iv chk kp) := by
  refine ⟨?_, ?_, ?_⟩
  · intro files now p
    rfl
  · intro files iv chk chk2 kp k p hrep hmem
    constructor
    · unfold passStep
      rw [hrep]
      simp [hmem]
    · unfold passStep
      rw [hrep]
      simp [hmem]
  · intro files iv chk kp
    exact passInterval_subset files iv chk kp

/-- Witness for C7: with the representative's id already kept, the step is
a no-op and agrees under two different window tests. -/
theorem granularity_order_precedence_witness :
    passStep
      [{ id := 3, name := "b", createdTime := none,
         created_datetime := some { year := 1, month := 1, day := 1, tod := 0 } }]
      .days (fun _ => true) {3} 1 = {3} ∧
    passStep
      [{ id := 3, name := "b", createdTime := none,
         created_datetime := some { year := 1, month := 1, day := 1, tod := 0 } }]
      .days (fun _ => true) {3} 1 =
    passStep
      [{ id := 3, name := "b", createdTime := none,
         created_datetime := some { year := 1, month := 1, day := 1, tod := 0 } }]
      .days (fun _ => false) {3} 1 :=
  granularity_order_precedence.2.1
    [{ id := 3, name := "b", createdTime := none,
       created_datetime := some { year := 1, month := 1, day := 1, tod := 0 } }]
    .days (fun _ => true) (fun _ => false) {3} 1
    ({ id := 3, name := "b", createdTime := none,
       created_datetime := some { year := 1, month := 1, day := 1, tod := 0 } },
     { year := 1, month := 1, day := 1, tod := 0 })
    (by decide) (by decide)

theorem find_calendar_congr (fl : List FileEntry) (pre : String) (now : DateTime)
    {kp1 kp2 : Option KeepPolicy}
    (h1 : keepPolicyTruthy kp1 = keepPolicyTruthy kp2)
    (h2 : effPolicy (kp1.getD emptyPolicy) = effPolicy (kp2.getD emptyPolicy)) :
    find_deletion_candidates fl pre now none kp1 = find_deletion_candidates fl pre now none kp2 := by
  rw [find_calendar_eq, find_calendar_eq, h1, h2]

/-- Claim C9 (confirmed).  When the policy mapping is non-empty (Python's
truthiness test on the dict), the planner behaves exactly as if every
omitted key were filled in with its line 116-119 default — `days`
defaulting to 7, while `weeks`, `months` and `years` default to 0 — and
the `_keep_policy` construction realises precisely those defaults. -/
theorem implicit_days_default :
    ∀ (fl : List FileEntry) (pre : String) (now : DateTime) (p : KeepPolicy),
      keepPolicyTruthy (some p) = true →
        find_deletion_candidates fl pre now none (some p) =
          find_deletion_candidates fl pre now none
            (some { days := some (p.days.getD 7), weeks := some (p.weeks.getD 0),
                    months := some (p.months.getD 0), years := some (p.years.getD 0) }) ∧
        effPolicy p = { days := p.days.getD 7, weeks := p.weeks.getD 0,
                        months := p.months.getD 0, years := p.years.getD 0 } := by
  intro fl pre now p hp
  constructor
  · refine find_calendar_congr fl pre now ?_ ?_
    · rw [hp]
      simp [keepPolicyTruthy]
    · simp [effPolicy, Option.getD]
  · rfl

/-- Witness for C9: a policy that omits `days`, `months` and `years` but
sets `weeks` behaves as the fully-defaulted policy (days 7, weeks 4,
months 0, years 0). -/
theorem implicit_days_default_witness :
    keepPolicyTruthy (some { days := none, weeks := some 4, months := none, years := none }) = true ∧
    (find_deletion_candidates [] ("") { year := 2020, month := 1, day := 1, tod := 0 } none
        (some { days := none, weeks := some 4, months := none, years := none }) =
      find_deletion_candidates [] ("") { year := 2020, month := 1, day := 1, tod := 0 } none
        (some { days := some 7, weeks := some 4, months := some 0, years := some 0 }) ∧
      effPolicy { days := none, weeks := some 4, months := none, years := none } =
        { days := 7, weeks := 4, months := 0, years := 0 }) :=
  ⟨by decide,
    implicit_days_default [] ("") { year := 2020, month := 1, day := 1, tod := 0 }
      { days := none, weeks := some 4, months := none, years := none } (by decide)⟩

/-- Claim C10 (confirmed).  When no record instant is later than `now`
(and all instants are valid datetimes), a granularity with count 0 marks
nothing kept: its pass is the identity on the kept set, because the
window start `now - relativedelta(**{interval: 0})` equals `now` itself
(shown explicitly for the calendar-aware months and years subtractions)
and keeping needs a creation instant strictly greater than the window
start. -/
theorem zero_count_keeps_nothing (files : List FileEntry) (now : DateTime) (iv : Interval)
    (kp : Finset Nat) (hnow : Valid now)
    (hrec : ∀ e ∈ files, TimeOk now e.created_datetime) :
    passInterval files iv (windowCheck now iv 0) kp = kp ∧
      subMonths now 0 = now ∧ subYears now 0 = now := by
  refine ⟨?_, subMonths_zero hnow, subYears_zero hnow⟩
  unfold passInterval
  have haux : ∀ (keys : List Nat) (kp0 : Finset Nat),
      keys.foldl (passStep files iv (windowCheck now iv 0)) kp0 = kp0 := by
    intro keys
    induction keys with
    | nil => intro kp0; rfl
    | cons k ks ih =>
      intro kp0
      simp only [List.foldl_cons]
      rw [passStep_zero hnow hrec, ih]
  exact haux _ kp

/-- Witness for C10: a 0-count weeks pass over one past record changes
nothing, and both calendar-aware zero subtractions return `now`. -/
theorem zero_count_keeps_nothing_witness :
    Valid ({ year := 2020, month := 3, day := 31, tod := 9 } : DateTime) ∧
    (passInterval
        [{ id := 4, name := "b", createdTime := none,
           created_datetime := some { year := 2020, month := 2, day := 29, tod := 0 } }]
        .weeks (windowCheck { year := 2020, month := 3, day := 31, tod := 9 } .weeks 0) {9} = {9} ∧
      subMonths { year := 2020, month := 3, day := 31, tod := 9 } 0 =
        { year := 2020, month := 3, day := 31, tod := 9 } ∧
      subYears { year := 2020, month := 3, day := 31, tod := 9 } 0 =
        { year := 2020, month := 3, day := 31, tod := 9 }) :=
  ⟨by decide,
    zero_count_keeps_nothing
      [{ id := 4, name := "b", createdTime := none,
         created_datetime := some { year := 2020, month := 2, day := 29, tod := 0 } }]
      { year := 2020, month := 3, day := 31, tod := 9 } .weeks {9} (by decide) (by decide)⟩

/-- Claim C2 (corrected).  For records whose creation instants are valid
datetimes not later than the evaluation instant `now`, each granularity
pass with count `g` adds at most `g + 1` ids to the kept set, whatever was
kept by the finer granularities before it — the kept representatives of
the pass occupy distinct bucket keys drawn from an interval of at most
`g + 1` key values.  The correction: the frozen claim quantifies over
every input record list, but a record created after `now` falls in a
bucket of its own beyond the window arithmetic, and enough future-dated
records make a pass keep more than `g + 1` records. -/
theorem calendar_coverage_bound (files : List FileEntry) (now : DateTime) (iv : Interval)
    (g : Nat) (kp : Finset Nat) (hnow : Valid now)
    (hrec : ∀ e ∈ files, TimeOk now e.created_datetime) :
    ((passInterval files iv (windowCheck now iv g) kp) \ kp).card ≤ g + 1 :=
  pass_bound_core files now iv g kp hnow hrec

/-- Witness for C2: a concrete 2-day window over one record created within
it. -/
theorem calendar_coverage_bound_witness :
    Valid ({ year := 2020, month := 1, day := 5, tod := 0 } : DateTime) ∧
    ((passInterval
        [{ id := 7, name := "m", createdTime := none,
           created_datetime := some { year := 2020, month := 1, day := 4, tod := 0 } }]
        .days (windowCheck { year := 2020, month := 1, day := 5, tod := 0 } .days 2) ∅) \
      (∅ : Finset Nat)).card ≤ 2 + 1 :=
  ⟨by decide,
    calendar_coverage_bound
      [{ id := 7, name := "m", createdTime := none,
         created_datetime := some { year := 2020, month := 1, day := 4, tod := 0 } }]
      { year := 2020, month := 1, day := 5, tod := 0 } .days 2 ∅ (by decide) (by decide)⟩

/-- Counterexample for C2 as frozen: with `now` = 2020-01-01 and two
records created on the two following (future) days, the days pass with
count 0 keeps both of them — 2 kept representatives, exceeding the claimed
bound 0 + 1. -/
theorem calendar_coverage_bound_cex :
    ¬ (((passInterval
        [{ id := 1, name := "b", createdTime := some (some { year := 2020, month := 1, day := 2, tod := 0 }),
           created_datetime := some { year := 2020, month := 1, day := 2, tod := 0 } },
         { id := 2, name := "b", createdTime := some (some { year := 2020, month := 1, day := 3, tod := 0 }),
           created_datetime := some { year := 2020, month := 1, day := 3, tod := 0 } }]
        .days (windowCheck { year := 2020, month := 1, day := 1, tod := 0 } .days 0) ∅) \
      (∅ : Finset Nat)).card ≤ 0 + 1) := by
  decide

end BackupMud
